import Mathlib

set_option maxRecDepth 8000
set_option linter.unusedVariables false

namespace MCPModel

/-! # Shallow embedding of flask-backend/mcp_client.py

Python dictionaries are modelled as insertion-ordered association lists:
assignment to an existing key replaces the value in place, assignment to a
new key appends at the end, matching CPython dict semantics. -/

def dlookup {α : Type} (d : List (String × α)) (k : String) : Option α :=
  match d with
  | [] => none
  | (k', v) :: rest => if k' = k then some v else dlookup rest k

def dcontains {α : Type} (d : List (String × α)) (k : String) : Bool :=
  (dlookup d k).isSome

def dinsert {α : Type} (d : List (String × α)) (k : String) (v : α) :
    List (String × α) :=
  match d with
  | [] => [(k, v)]
  | (k', v') :: rest => if k' = k then (k, v) :: rest else (k', v') :: dinsert rest k v

def derase {α : Type} (d : List (String × α)) (k : String) : List (String × α) :=
  match d with
  | [] => []
  | (k', v') :: rest => if k' = k then rest else (k', v') :: derase rest k

def dkeys {α : Type} (d : List (String × α)) : List String := d.map Prod.fst

/-! ## JSON values

Model of the loosely-typed values produced by Python's `json.loads` and the
dict/list/str literals the client builds.  Numbers are modelled as integers
(the subset exercised by the client and its protocol examples). -/

inductive Json where
  | null : Json
  | bool (b : Bool) : Json
  | num (n : Int) : Json
  | str (s : String) : Json
  | arr (elts : List Json) : Json
  | obj (fields : List (String × Json)) : Json
deriving Inhabited

mutual

def Json.beq : Json → Json → Bool
  | .null, .null => true
  | .bool a, .bool b => a == b
  | .num a, .num b => a == b
  | .str a, .str b => a == b
  | .arr a, .arr b => Json.beqList a b
  | .obj a, .obj b => Json.beqFields a b
  | _, _ => false

def Json.beqList : List Json → List Json → Bool
  | [], [] => true
  | a :: as, b :: bs => Json.beq a b && Json.beqList as bs
  | _, _ => false

def Json.beqFields : List (String × Json) → List (String × Json) → Bool
  | [], [] => true
  | (k, a) :: as, (k', b) :: bs => k == k' && Json.beq a b && Json.beqFields as bs
  | _, _ => false

end

instance : BEq Json := ⟨Json.beq⟩

mutual

theorem Json.beq_correct : ∀ a b : Json, Json.beq a b = true → a = b
  | .null, .null, _ => rfl
  | .bool a, .bool b, h => by
      simp only [Json.beq, beq_iff_eq] at h; exact congrArg Json.bool h
  | .num a, .num b, h => by
      simp only [Json.beq, beq_iff_eq] at h; exact congrArg Json.num h
  | .str a, .str b, h => by
      simp only [Json.beq, beq_iff_eq] at h; exact congrArg Json.str h
  | .arr a, .arr b, h => congrArg Json.arr (Json.beqList_correct a b h)
  | .obj a, .obj b, h => congrArg Json.obj (Json.beqFields_correct a b h)

theorem Json.beqList_correct : ∀ a b : List Json, Json.beqList a b = true → a = b
  | [], [], _ => rfl
  | a :: as, b :: bs, h => by
      simp only [Json.beqList, Bool.and_eq_true] at h
      rw [Json.beq_correct a b h.1, Json.beqList_correct as bs h.2]

theorem Json.beqFields_correct :
    ∀ a b : List (String × Json), Json.beqFields a b = true → a = b
  | [], [], _ => rfl
  | (k, a) :: as, (k', b) :: bs, h => by
      simp only [Json.beqFields, Bool.and_eq_true, beq_iff_eq] at h
      rw [h.1.1, Json.beq_correct a b h.1.2, Json.beqFields_correct as bs h.2]

end

mutual

theorem Json.beq_refl : ∀ a : Json, Json.beq a a = true
  | .null => rfl
  | .bool a => by simp [Json.beq]
  | .num a => by simp [Json.beq]
  | .str a => by simp [Json.beq]
  | .arr a => Json.beqList_refl a
  | .obj a => Json.beqFields_refl a

theorem Json.beqList_refl : ∀ a : List Json, Json.beqList a a = true
  | [] => rfl
  | a :: as => by
      simp only [Json.beqList, Bool.and_eq_true]
      exact ⟨Json.beq_refl a, Json.beqList_refl as⟩

theorem Json.beqFields_refl : ∀ a : List (String × Json), Json.beqFields a a = true
  | [] => rfl
  | (k, a) :: as => by
      simp only [Json.beqFields, Bool.and_eq_true, beq_self_eq_true, true_and]
      exact ⟨Json.beq_refl a, Json.beqFields_refl as⟩

end

instance : DecidableEq Json := fun a b =>
  if h : Json.beq a b = true then
    isTrue (Json.beq_correct a b h)
  else
    isFalse (fun he => h (he ▸ Json.beq_refl a))

/-! ## String helpers

Models of the Python string operations the client uses: substring test
(`"needle" in s`), prefix test (`s.startswith(p)`) and slicing
(`s[n:]`).  All are defined over the character list of the string so that
list lemmas apply. -/

def sPrefixOf (p s : String) : Bool := p.data.isPrefixOf s.data

def sDrop (s : String) (n : Nat) : String := String.mk (s.data.drop n)

def infixAux (needle : List Char) : List Char → Bool
  | [] => needle.isEmpty
  | c :: rest => needle.isPrefixOf (c :: rest) || infixAux needle rest

def strContains (needle hay : String) : Bool := infixAux needle.data hay.data

/-- Model of Python's `str.replace` (all occurrences, leftmost first).
Fuel-driven so that it evaluates in the kernel; the fuel (the string
length) is always sufficient since every step consumes at least one
character. -/
def replaceFuel (pat rep : List Char) : Nat → List Char → List Char
  | 0, s => s
  | _ + 1, [] => []
  | fuel + 1, c :: rest =>
    if pat ≠ [] ∧ pat.isPrefixOf (c :: rest) then
      rep ++ replaceFuel pat rep fuel ((c :: rest).drop pat.length)
    else c :: replaceFuel pat rep fuel rest

def sReplace (s pat rep : String) : String :=
  if pat.isEmpty then s
  else String.mk (replaceFuel pat.data rep.data s.length s.data)

/-- Model of `re.search(r'token=(mcp-session-[^&]+)', url)` at one position:
the literal `token=` then the captured group `mcp-session-[^&]+`. -/
def tokenMatchAt (s : List Char) : Option String :=
  if "token=".data.isPrefixOf s then
    let rest := s.drop 6
    if "mcp-session-".data.isPrefixOf rest then
      let run := (rest.drop 12).takeWhile (fun c => c ≠ '&')
      if run.isEmpty then none else some ("mcp-session-" ++ String.mk run)
    else none
  else none

/-- Leftmost search of `re.search(r'token=(mcp-session-[^&]+)', url)`. -/
def tokenSearch : List Char → Option String
  | [] => none
  | c :: rest =>
    match tokenMatchAt (c :: rest) with
    | some t => some t
    | none => tokenSearch rest

/-- Model of `re.search(r'://(?:mcp\.)?([^:/]+)', url)` at one position,
including the backtracking of the optional greedy group `(?:mcp\.)?`. -/
def domMatchAt (s : List Char) : Option String :=
  if "://".data.isPrefixOf s then
    let rest := s.drop 3
    let afterOpt :=
      if "mcp.".data.isPrefixOf rest then
        match rest.drop 4 with
        | [] => rest
        | c :: r2 => if c ≠ ':' ∧ c ≠ '/' then c :: r2 else rest
      else rest
    let dom := afterOpt.takeWhile (fun c => c ≠ ':' ∧ c ≠ '/')
    if dom.isEmpty then none else some (String.mk dom)
  else none

/-- Leftmost search of `re.search(r'://(?:mcp\.)?([^:/]+)', url)`. -/
def domSearch : List Char → Option String
  | [] => none
  | c :: rest =>
    match domMatchAt (c :: rest) with
    | some t => some t
    | none => domSearch rest

/-! ## A model of Python's `json.loads`

A fuel-driven recursive-descent parser for the JSON subset flowing through
the client (objects, arrays, strings with the common escapes, integers,
booleans, null).  `json_loads` returns `none` exactly when the parse fails,
modelling the `json.JSONDecodeError` branch of the source. -/

def skipWs : List Char → List Char
  | [] => []
  | c :: rest =>
    if c = ' ' ∨ c = '\n' ∨ c = '\t' ∨ c = '\r' then skipWs rest else c :: rest

def parseStrAux : List Char → List Char → Option (String × List Char)
  | acc, '\\' :: e :: rest =>
    if e = '"' then parseStrAux ('"' :: acc) rest
    else if e = '\\' then parseStrAux ('\\' :: acc) rest
    else if e = '/' then parseStrAux ('/' :: acc) rest
    else if e = 'n' then parseStrAux ('\n' :: acc) rest
    else if e = 't' then parseStrAux ('\t' :: acc) rest
    else if e = 'r' then parseStrAux ('\r' :: acc) rest
    else if e = 'b' then parseStrAux ('\x08' :: acc) rest
    else if e = 'f' then parseStrAux ('\x0c' :: acc) rest
    else none
  | acc, c :: rest =>
    if c = '"' then some (String.mk acc.reverse, rest)
    else if c = '\\' then none
    else parseStrAux (c :: acc) rest
  | _, [] => none

def digitsToNat (ds : List Char) : Nat :=
  ds.foldl (fun n c => n * 10 + (c.toNat - 48)) 0

def parseNum : List Char → Option (Json × List Char)
  | '-' :: rest =>
    let ds := rest.takeWhile Char.isDigit
    if ds.isEmpty then none
    else some (.num (-(Int.ofNat (digitsToNat ds))), rest.drop ds.length)
  | s =>
    let ds := s.takeWhile Char.isDigit
    if ds.isEmpty then none
    else some (.num (Int.ofNat (digitsToNat ds)), s.drop ds.length)

mutual

def parseVal : Nat → List Char → Option (Json × List Char)
  | 0, _ => none
  | fuel + 1, s =>
    match skipWs s with
    | [] => none
    | c :: rest =>
      if c = 'n' then
        if "ull".data.isPrefixOf rest then some (.null, rest.drop 3) else none
      else if c = 't' then
        if "rue".data.isPrefixOf rest then some (.bool true, rest.drop 3) else none
      else if c = 'f' then
        if "alse".data.isPrefixOf rest then some (.bool false, rest.drop 4) else none
      else if c = '"' then
        match parseStrAux [] rest with
        | some (str, r) => some (.str str, r)
        | none => none
      else if c = '-' ∨ c.isDigit then parseNum (c :: rest)
      else if c = '[' then
        match skipWs rest with
        | ']' :: r => some (.arr [], r)
        | r => parseArrTail fuel r []
      else if c = '\x7b' then
        match skipWs rest with
        | '\x7d' :: r => some (.obj [], r)
        | r => parseObjTail fuel r []
      else none

def parseArrTail : Nat → List Char → List Json → Option (Json × List Char)
  | 0, _, _ => none
  | fuel + 1, s, acc =>
    match parseVal fuel s with
    | none => none
    | some (v, r) =>
      match skipWs r with
      | ',' :: r2 => parseArrTail fuel r2 (v :: acc)
      | ']' :: r2 => some (.arr (v :: acc).reverse, r2)
      | _ => none

def parseObjTail : Nat → List Char → List (String × Json) →
    Option (Json × List Char)
  | 0, _, _ => none
  | fuel + 1, s, acc =>
    match skipWs s with
    | '"' :: r =>
      match parseStrAux [] r with
      | none => none
      | some (key, r2) =>
        match skipWs r2 with
        | ':' :: r3 =>
          match parseVal fuel r3 with
          | none => none
          | some (v, r4) =>
            match skipWs r4 with
            | ',' :: r5 => parseObjTail fuel r5 ((key, v) :: acc)
            | '\x7d' :: r5 => some (.obj ((key, v) :: acc).reverse, r5)
            | _ => none
        | _ => none
    | _ => none

end

def json_loads (s : String) : Option Json :=
  match parseVal (2 * s.length + 4) s.data with
  | some (j, rest) => if (skipWs rest).isEmpty then some j else none
  | none => none

example : json_loads "\x7b\"a\":1\x7d" = some (.obj [("a", .num 1)]) := by decide

example : json_loads "plain" = none := by decide

example :
    json_loads "\x7b\"result\":\x7b\"content\":[\x7b\"type\":\"text\",\"text\":\"hi\"\x7d]\x7d\x7d" =
      some (.obj [("result", .obj [("content",
        .arr [.obj [("type", .str "text"), ("text", .str "hi")]])])]) := by
  decide

/-! ## Data model (mcp_client.py, class MCPClient)

`time.time()` values are modelled as natural-number seconds passed in
explicitly (`now`), and `uuid.uuid4()` as an explicitly passed fresh
string (`freshU`); the code builds session ids as
`"mcp-session-" + str(uuid4())`. -/

structure ServerConfig where
  url : Option String := none
  command : Option String := none
  args : List String := []
deriving DecidableEq

structure PendingAuth where
  session_id : String
  phone_number : String
  status : String
  timestamp : Nat
deriving DecidableEq

structure AuthSession where
  session_id : String
  phone_number : String
  status : String
  timestamp : Nat
  expires_in : Nat
deriving DecidableEq

structure ClientState where
  servers : List (String × ServerConfig)
  pending_auth : List (String × PendingAuth)
  authenticated_sessions : List (String × AuthSession)
  session_timeout : Nat := 3600
deriving DecidableEq

/-- `MCPClient._is_session_expired`: `(current_time - session_time) > self.session_timeout`. -/
def is_session_expired (timeout : Nat) (now : Nat) (s : AuthSession) : Bool :=
  now - s.timestamp > timeout

/-- `MCPClient.is_authenticated`: membership test, lazy eviction of an
expired record, then `session_info["status"] == "authenticated"`.
Returns the boolean together with the (possibly mutated) state. -/
def is_authenticated (st : ClientState) (now : Nat) (server : String) :
    Bool × ClientState :=
  match dlookup st.authenticated_sessions server with
  | none => (false, st)
  | some info =>
    if is_session_expired st.session_timeout now info then
      (false, { st with
        authenticated_sessions := derase st.authenticated_sessions server })
    else
      (info.status = "authenticated", st)

/-- `MCPClient.cleanup_expired_sessions`: sweep every expired authenticated
record, delete them, return how many were removed. -/
def cleanup_expired_sessions (st : ClientState) (now : Nat) : Nat × ClientState :=
  let expired := st.authenticated_sessions.filter
    (fun p => is_session_expired st.session_timeout now p.2)
  let remaining := st.authenticated_sessions.filter
    (fun p => ! is_session_expired st.session_timeout now p.2)
  (expired.length, { st with authenticated_sessions := remaining })

/-! ## Network environment

`requests.post` outcomes are supplied by the environment: a normal
response (status code and body text), a timeout
(`requests.exceptions.Timeout`), or another raised exception. -/

inductive HttpAnswer where
  | resp (status : Nat) (body : String) : HttpAnswer
  | timeout : HttpAnswer
  | exn (msg : String) : HttpAnswer
deriving DecidableEq

/-- The envelope `_call_http_tool` returns: a `content` value (a decoded
object, a plain string, or the login-required dict, all as `Json`),
`success`, and the optional `error` field. -/
structure ToolResult where
  content : Json
  success : Bool
  error : Option Json := none
deriving DecidableEq

instance {α β : Type} [DecidableEq α] [DecidableEq β] :
    DecidableEq (Except α β) := fun a b =>
  match a, b with
  | .ok x, .ok y =>
    if h : x = y then isTrue (by rw [h])
    else isFalse (fun he => h (Except.ok.inj he))
  | .error x, .error y =>
    if h : x = y then isTrue (by rw [h])
    else isFalse (fun he => h (Except.error.inj he))
  | .ok _, .error _ => isFalse (fun he => Except.noConfusion he)
  | .error _, .ok _ => isFalse (fun he => Except.noConfusion he)

/-- Result envelope of `mark_session_authenticated`. -/
structure MarkResult where
  success : Bool
  error : Option String := none
  message : Option String := none
  session_id : Option String := none
deriving DecidableEq

/-- Lines 364-395: the optional transport-specific session registration
(`requests.post(login_url, ...)`), performed only for HTTP servers; `none`
means it succeeded (or was skipped), `some e` the error it reports. -/
def registrationOutcome (cfg : ServerConfig) (regAns : HttpAnswer) :
    Option String :=
  match cfg.url with
  | none => none
  | some _ =>
    match regAns with
    | .resp 200 _ => none
    | .resp _ body => some ("Failed to register session with server: " ++ body)
    | .timeout => some "Error registering session: timeout"
    | .exn m => some ("Error registering session: " ++ m)

/-- Lines 357-416: the tail of `mark_session_authenticated` once a pending
session exists — id comparison, registration side call, then the move from
the pending map into the authenticated map. -/
def markFinish (st : ClientState) (server sid : String) (pending : PendingAuth)
    (regAns : HttpAnswer) (now : Nat) : ClientState × MarkResult :=
  if pending.session_id ≠ sid then
    (st, { success := false, error := some "Session ID mismatch" })
  else
    match registrationOutcome ((dlookup st.servers server).getD {}) regAns with
    | some e => (st, { success := false, error := some e })
    | none =>
      ({ st with
          authenticated_sessions := dinsert st.authenticated_sessions server
            { session_id := sid
              phone_number := pending.phone_number
              status := "authenticated"
              timestamp := now
              expires_in := st.session_timeout }
          pending_auth := derase st.pending_auth server },
       { success := true
         message := some "Session authenticated successfully"
         session_id := some sid })

/-- `MCPClient.mark_session_authenticated`.  `sid?` models the optional
`session_id` argument; `regAns` is the environment's answer to the
session-registration `requests.post` (only consulted for HTTP servers on
the match path). -/
def mark_session_authenticated (st : ClientState) (server : String)
    (sid? : Option String) (regAns : HttpAnswer) (now : Nat) :
    ClientState × MarkResult :=
  match sid?, dlookup st.pending_auth server with
  | none, none =>
    (st, { success := false,
           error := some "No pending authentication session found and no session ID provided" })
  | _, none =>
    (st, { success := false,
           error := some "No pending authentication session found" })
  | sid?, some pending =>
    markFinish st server (sid?.getD pending.session_id) pending regAns now

/-! ## `_call_http_tool` (lines 536-686)

The single `requests.post` consumes the first answer of the environment
list `net`; exceptions that the generic handler would catch are folded into
the error envelope, exceptions that escape the function are `Except.error`.
Exception message texts are approximations of `str(e)`; no claim inspects
them. -/

def errorEnvelope (tool msg : String) : ToolResult :=
  { content := .str ("Error calling tool " ++ tool ++ ": " ++ msg)
    success := false
    error := some (.str msg) }

/-- Lines 653-665: JSON-decode the embedded text, fall back to the raw
string; both are success results. -/
def textContentResult (txt : String) : ToolResult :=
  match json_loads txt with
  | some parsed => { content := parsed, success := true }
  | none => { content := .str txt, success := true }

/-- Lines 637-671: processing of the decoded JSON-RPC response.
`Except.error` marks a Python exception reaching the generic handler
(`in`/`.get`/indexing on values of the wrong shape); all such cases end in
the error envelope, matching the net behaviour of the source. -/
def extractResult (rpc : Json) : Except String ToolResult :=
  match rpc with
  | .obj fields =>
    match dlookup fields "error" with
    | some einfo =>
      match einfo with
      | .obj efs =>
        let msg :=
          match dlookup efs "message" with
          | some (.str m) => m
          | _ => "Unknown error"
        .ok { content := .str ("MCP Error: " ++ msg)
              success := false
              error := some einfo }
      | _ => .error "AttributeError: get on non-dict error"
    | none =>
      match dlookup fields "result" with
      | some result =>
        match result with
        | .obj rfs =>
          match dlookup rfs "content" with
          | some clist =>
            match clist with
            | .arr (item :: _) =>
              match item with
              | .obj ifs =>
                if dlookup ifs "type" = some (.str "text") then
                  match dlookup ifs "text" with
                  | some (.str txt) => .ok (textContentResult txt)
                  | none => .ok (textContentResult "")
                  | some _ => .error "TypeError: json.loads on non-string"
                else
                  .ok { content := result, success := true }
              | _ => .error "AttributeError: get on non-dict content item"
            | .arr [] => .ok { content := result, success := true }
            | .str s =>
              if s.isEmpty then .ok { content := result, success := true }
              else .error "AttributeError: get on str"
            | .obj cfs =>
              if cfs.isEmpty then .ok { content := result, success := true }
              else .error "KeyError: 0"
            | .null => .ok { content := result, success := true }
            | .bool b =>
              if b then .error "TypeError: len" else .ok { content := result, success := true }
            | .num n =>
              if n = 0 then .ok { content := result, success := true }
              else .error "TypeError: len"
          | none => .ok { content := result, success := true }
        | .str s =>
          if strContains "content" s then .error "TypeError: string indices"
          else .ok { content := result, success := true }
        | .arr elts =>
          if elts.contains (.str "content") then .error "TypeError: list indices"
          else .ok { content := result, success := true }
        | _ => .error "TypeError: argument not iterable"
      | none => .ok { content := .str "No content returned", success := true }
  | _ => .error "TypeError: response is not a dict"

/-- Lines 632-671: `response.json()` then result extraction; a parse
failure or an escaped exception becomes the generic error envelope. -/
def handleOkBody (tool body : String) : ToolResult :=
  match json_loads body with
  | none => errorEnvelope tool "JSONDecodeError"
  | some rpc =>
    match extractResult rpc with
    | .ok r => r
    | .error e => errorEnvelope tool e

def pendingFor (sid : String) (now : Nat) : PendingAuth :=
  { session_id := sid
    phone_number := "unknown"
    status := "pending_auth_redirect"
    timestamp := now }

/-- Lines 561-585: session-id selection.  `stA` is the pair produced by
`not use_dummy_session and self.is_authenticated(...)` (result plus the
state after its lazy eviction); on an authenticated hit the stored id is
used, otherwise the pending id, otherwise a fresh id is minted and stored
as a new pending session. -/
def selectSession (stA : Bool × ClientState) (server freshU : String)
    (now : Nat) : String × ClientState :=
  if stA.1 then
    match dlookup stA.2.authenticated_sessions server with
    | some a => (a.session_id, stA.2)
    | none => ("", stA.2)
  else
    match dlookup stA.2.pending_auth server with
    | some p => (p.session_id, stA.2)
    | none =>
      ("mcp-session-" ++ freshU,
        { stA.2 with pending_auth := dinsert stA.2.pending_auth server (pendingFor ("mcp-session-" ++ freshU) now) })

/-- Lines 620-628: the login-required success envelope built for an HTTP
400 carrying the invalid-session sentinel. -/
def loginRequiredResult (mcp_url sid : String) : ToolResult :=
  { content := .obj [
      ("status", .str "login_required"),
      ("login_url", .str (sReplace mcp_url "/mcp/stream" "" ++
        "/wealth-mcp-login?token=" ++ sid)),
      ("message", .str "Please complete authentication using the provided link"),
      ("session_id", .str sid)]
    success := true }

/-- Lines 599-628: the HTTP-400 auth-required branch — reuse the pending
session id if one exists, otherwise mint and store a fresh one, then
answer with the login URL for it. -/
def authRequired400 (st2 : ClientState) (server mcp_url freshU : String)
    (now : Nat) : ClientState × Except String ToolResult :=
  match dlookup st2.pending_auth server with
  | some p => (st2, .ok (loginRequiredResult mcp_url p.session_id))
  | none =>
    ({ st2 with pending_auth := dinsert st2.pending_auth server (pendingFor ("mcp-session-" ++ freshU) now) },
     .ok (loginRequiredResult mcp_url ("mcp-session-" ++ freshU)))

/-- Lines 587-686: dispatch on the outcome of the single `requests.post`. -/
def httpRequestStep (st2 : ClientState) (server tool mcp_url freshU : String)
    (now : Nat) (ans : HttpAnswer) : ClientState × Except String ToolResult :=
  match ans with
  | .timeout =>
    (st2, .ok { content := .str ("Timeout calling tool " ++ tool)
                success := false
                error := some (.str "Request timeout") })
  | .exn m => (st2, .ok (errorEnvelope tool m))
  | .resp status body =>
    if status = 400 ∧ strContains "Invalid session ID" body then
      authRequired400 st2 server mcp_url freshU now
    else if 400 ≤ status ∧ status < 600 then
      (st2, .ok (errorEnvelope tool ("HTTPError: " ++ toString status)))
    else
      (st2, .ok (handleOkBody tool body))

/-- `MCPClient._call_http_tool`.  `Except.error` models a raised
exception (`ValueError` for an unconfigured server, `KeyError` when the
config has no url). -/
def call_http_tool (st : ClientState) (server tool : String) (args : Json)
    (use_dummy_session : Bool) (net : List HttpAnswer) (freshU : String)
    (now : Nat) : ClientState × Except String ToolResult :=
  match dlookup st.servers server with
  | none => (st, .error ("Server " ++ server ++ " is not configured"))
  | some cfg =>
    match cfg.url with
    | none => (st, .error "KeyError: url")
    | some mcp_url =>
      httpRequestStep
        (selectSession
          (if use_dummy_session then (false, st)
           else is_authenticated st now server) server freshU now).2
        server tool mcp_url freshU now (net.headD (.exn "ConnectionError"))

/-! ## `generate_auth_session` (lines 256-336) -/

structure GenResult where
  success : Bool
  session_id : String
  login_url : String
  message : String
deriving DecidableEq

/-- Lines 266-270: `result.get("content")` must be truthy, a dict, carry
`status == "login_required"` and a truthy `login_url` (a non-string
`login_url` ends in the same fallback via the `re.search` TypeError). -/
def loginRequiredInfo (content : Json) : Option (String × String) :=
  match content with
  | .obj fs =>
    if fs.isEmpty then none
    else
      match dlookup fs "status", dlookup fs "login_url" with
      | some (.str stat), some (.str u) =>
        if stat = "login_required" ∧ u ≠ "" then
          some (u,
            match dlookup fs "message" with
            | some (.str m) => m
            | _ => "Please complete authentication at Fi Money using the provided link")
        else none
      | _, _ => none
  | _ => none

/-- Lines 300-336: the fallback mint — a fresh session id, a login URL
derived from the server's domain.  The pending entry is stored before
`server_config["url"]` is read, so a stdio config leaves the fresh pending
entry behind and raises `KeyError`. -/
def genFallback (st1 : ClientState) (cfg : ServerConfig)
    (server phone freshU2 : String) (now2 : Nat) :
    ClientState × Except String GenResult :=
  let sid := "mcp-session-" ++ freshU2
  let entry : PendingAuth :=
    { session_id := sid, phone_number := phone,
      status := "pending_auth_redirect", timestamp := now2 }
  let st2 := { st1 with pending_auth := dinsert st1.pending_auth server entry }
  match cfg.url with
  | none => (st2, .error "KeyError: url")
  | some mcp_url =>
    let base_domain :=
      match domSearch mcp_url.data with
      | some dom => String.mk (dom.data.takeWhile (fun c => c ≠ ':'))
      | none => "fi.money"
    let login_url := "https://" ++ base_domain ++ "/wealth-mcp-login?token=" ++ sid
    (st2, .ok { success := true
                session_id := sid
                login_url := login_url
                message := "Please complete authentication using the provided link" })

/-- `MCPClient.generate_auth_session`.  `freshU` is the uuid a mint inside
the probing `_call_http_tool` would use, `freshU2` the uuid of this
function's own fallback mint; `now` is the probe's clock reading and
`now2` the one used when storing the pending entry. -/
def generate_auth_session (st : ClientState) (server phone : String)
    (net : List HttpAnswer) (freshU freshU2 : String) (now now2 : Nat) :
    ClientState × Except String GenResult :=
  match dlookup st.servers server with
  | none => (st, .error ("Server " ++ server ++ " is not configured"))
  | some cfg =>
    match call_http_tool st server "fetch_net_worth" (Json.obj []) true net freshU now with
    | (st1, .error _) => genFallback st1 cfg server phone freshU2 now2
    | (st1, .ok r) =>
      match loginRequiredInfo r.content with
      | none => genFallback st1 cfg server phone freshU2 now2
      | some (lurl, msg) =>
        let sid := (tokenSearch lurl.data).getD ("mcp-session-" ++ freshU2)
        let entry : PendingAuth :=
          { session_id := sid, phone_number := phone,
            status := "pending_auth_redirect", timestamp := now2 }
        let st2 := { st1 with pending_auth := dinsert st1.pending_auth server entry }
        (st2, .ok { success := true
                    session_id := sid
                    login_url := lurl
                    message := msg })

/-! ## Tool registry and dispatcher (lines 220-234 and 692-751) -/

structure ToolInfo where
  name : String
  description : String
  input_schema : Json
  server : String
deriving DecidableEq

/-- `MCPClient.get_all_available_tools`: build the per-server tool dict;
a failing `get_server_tools` (environment `fetch`) records `[]`. -/
def get_all_available_tools (servers : List (String × ServerConfig))
    (fetch : String → Except String (List ToolInfo)) :
    List (String × List ToolInfo) :=
  servers.foldl
    (fun acc p =>
      dinsert acc p.1 (match fetch p.1 with | .ok ts => ts | .error _ => []))
    []

/-- Lines 714-733: resolve `function_name` against the configured server
names — first match in dict (insertion) order, else fall back to the first
configured server with the whole name as tool; `none` only when no servers
are configured (the `raise ValueError`). -/
def resolveServerTool (names : List String) (fn : String) :
    Option (String × String) :=
  match names.find? (fun s => sPrefixOf (s ++ "_") fn) with
  | some s => some (s, sDrop fn (s ++ "_").length)
  | none =>
    match names with
    | [] => none
    | first :: _ => some (first, fn)

/-- `MCPClient.call_tool`: route to the HTTP transport when the config has
a url.  The stdio transport is subprocess I/O through the MCP SDK and is
outside this model; the claims settled here restrict to HTTP configs. -/
def call_tool (st : ClientState) (server tool : String) (args : Json)
    (net : List HttpAnswer) (freshU : String) (now : Nat) :
    ClientState × Except String ToolResult :=
  match dlookup st.servers server with
  | none => (st, .error ("Server " ++ server ++ " is not configured"))
  | some cfg =>
    match cfg.url with
    | some _ => call_http_tool st server tool args false net freshU now
    | none => (st, .error "stdio transport outside model")

structure GeminiResult where
  success : Bool
  result : Option Json := none
  error : Option String := none
  server : Option String := none
  tool : Option String := none
deriving DecidableEq

/-- `MCPClient.execute_tool_for_gemini`.  In the no-server failure
envelope both `server_name` and `tool_name` are the Python `None` they
were initialised to, hence `none` fields. -/
def execute_tool_for_gemini (st : ClientState) (fn : String) (args : Json)
    (net : List HttpAnswer) (freshU : String) (now : Nat) :
    ClientState × GeminiResult :=
  match resolveServerTool (dkeys st.servers) fn with
  | none =>
    (st, { success := false
           error := some "No MCP servers available"
           server := none
           tool := none })
  | some (server, tool) =>
    match call_tool st server tool args net freshU now with
    | (st', .ok r) =>
      (st', { success := true
              result := some r.content
              server := some server
              tool := some tool })
    | (st', .error e) =>
      (st', { success := false
              error := some e
              server := some server
              tool := some tool })

/-! # Helper lemmas -/

theorem find?_first {α : Type} (p : α → Bool) :
    ∀ (l : List α) (i : Nat) (h : i < l.length),
      p (l.get ⟨i, h⟩) = true →
      (∀ j (hj : j < l.length), j < i → p (l.get ⟨j, hj⟩) = false) →
      l.find? p = some (l.get ⟨i, h⟩)
  | a :: as, 0, h, hp, _ => by
    have ha : p a = true := hp
    simp [List.find?, ha]
  | a :: as, i + 1, h, hp, hearlier => by
    have ha : p a = false := hearlier 0 (Nat.succ_pos _) (Nat.succ_pos _)
    simp only [List.find?, ha]
    exact find?_first p as i (Nat.lt_of_succ_lt_succ h) hp
      (fun j hj hji => hearlier (j + 1) (Nat.succ_lt_succ hj) (Nat.succ_lt_succ hji))

theorem resolve_first_match (names : List String) (fn : String)
    (i : Nat) (hi : i < names.length)
    (hp : sPrefixOf (names.get ⟨i, hi⟩ ++ "_") fn = true)
    (hearlier : ∀ j (hj : j < names.length), j < i →
      sPrefixOf (names.get ⟨j, hj⟩ ++ "_") fn = false) :
    resolveServerTool names fn =
      some (names.get ⟨i, hi⟩, sDrop fn ((names.get ⟨i, hi⟩ ++ "_").length)) ∧
    fn = names.get ⟨i, hi⟩ ++ "_" ++ sDrop fn ((names.get ⟨i, hi⟩ ++ "_").length) := by
  have hfind := find?_first (fun s => sPrefixOf (s ++ "_") fn) names i hi hp hearlier
  constructor
  · simp [resolveServerTool, hfind]
  · set s := names.get ⟨i, hi⟩ with hs
    have hpre : (s ++ "_").data <+: fn.data := List.isPrefixOf_iff_prefix.mp hp
    obtain ⟨rest, hrest⟩ := hpre
    have hdrop : (sDrop fn ((s ++ "_").length)).data = rest := by
      show fn.data.drop ((s ++ "_").length) = rest
      rw [← hrest]
      rw [show (s ++ "_").length = (s ++ "_").data.length from rfl]
      exact List.drop_left _ _
    apply String.ext
    rw [String.data_append, String.data_append, hdrop, ← hrest,
      String.data_append, List.append_assoc]

/-! # Claims -/

/-- C1 counterexample: with known servers configured in the order
`fi_mcp`, `fi_mcp_extra`, the dispatch target
`fi_mcp_extra_fetch_net_worth` resolves to server `fi_mcp` with tool
`extra_fetch_net_worth` — the loop in `execute_tool_for_gemini` takes the
first matching server name, not the longest one, so the resolution the
claim demands does not happen. -/
theorem C1_counterexample :
    resolveServerTool ["fi_mcp", "fi_mcp_extra"] "fi_mcp_extra_fetch_net_worth" =
      some ("fi_mcp", "extra_fetch_net_worth") ∧
    resolveServerTool ["fi_mcp", "fi_mcp_extra"] "fi_mcp_extra_fetch_net_worth" ≠
      some ("fi_mcp_extra", "fetch_net_worth") := by
  constructor
  · decide
  · decide

/-- C1 (amended): resolving a dispatched name matches the first configured
server name, in configuration (dict insertion) order, whose name followed
by an underscore is a prefix of the dispatched name — not the longest such
prefix.  The matched prefix is split off exactly
(`fn = server ++ "_" ++ tool`).  With servers ordered
`[fi_mcp, fi_mcp_extra]` the example target resolves to
`(fi_mcp, extra_fetch_net_worth)`; only with `fi_mcp_extra` ordered first
does it resolve to `(fi_mcp_extra, fetch_net_worth)`. -/
theorem C1_resolution_is_first_match :
    (∀ (names : List String) (fn : String) (i : Nat) (hi : i < names.length),
      sPrefixOf (names.get ⟨i, hi⟩ ++ "_") fn = true →
      (∀ j (hj : j < names.length), j < i →
        sPrefixOf (names.get ⟨j, hj⟩ ++ "_") fn = false) →
      resolveServerTool names fn =
        some (names.get ⟨i, hi⟩, sDrop fn ((names.get ⟨i, hi⟩ ++ "_").length)) ∧
      fn = names.get ⟨i, hi⟩ ++ "_" ++
        sDrop fn ((names.get ⟨i, hi⟩ ++ "_").length)) ∧
    resolveServerTool ["fi_mcp", "fi_mcp_extra"] "fi_mcp_extra_fetch_net_worth" =
      some ("fi_mcp", "extra_fetch_net_worth") ∧
    resolveServerTool ["fi_mcp_extra", "fi_mcp"] "fi_mcp_extra_fetch_net_worth" =
      some ("fi_mcp_extra", "fetch_net_worth") := by
  refine ⟨resolve_first_match, by decide, by decide⟩

/-- C1 witness: the first-match characterization applied at the concrete
input of the claim's example. -/
theorem C1_resolution_is_first_match_witness :
    resolveServerTool ["fi_mcp", "fi_mcp_extra"] "fi_mcp_extra_fetch_net_worth" =
      some ("fi_mcp", "extra_fetch_net_worth") ∧
    "fi_mcp_extra_fetch_net_worth" = "fi_mcp" ++ "_" ++ "extra_fetch_net_worth" := by
  have h := C1_resolution_is_first_match.1 ["fi_mcp", "fi_mcp_extra"]
    "fi_mcp_extra_fetch_net_worth" 0 (by decide) (by decide)
    (fun j hj hji => absurd hji (Nat.not_lt_zero j))
  exact ⟨h.1.trans (by decide), h.2.trans (by decide)⟩

theorem dlookup_head {α : Type} (k : String) (v : α) (rest : List (String × α)) :
    dlookup ((k, v) :: rest) k = some v := by simp [dlookup]

/-- `_call_http_tool` catches every transport outcome: with a configured
HTTP server it always returns an envelope, never raises. -/
theorem call_http_tool_isOk (st : ClientState) (server tool : String)
    (args : Json) (dummy : Bool) (net : List HttpAnswer) (freshU : String)
    (now : Nat) (cfg : ServerConfig) (u : String)
    (hcfg : dlookup st.servers server = some cfg) (hurl : cfg.url = some u) :
    ∃ st' r, call_http_tool st server tool args dummy net freshU now =
      (st', .ok r) := by
  unfold call_http_tool
  rw [hcfg]
  simp only [hurl]
  unfold httpRequestStep authRequired400
  repeat' split
  all_goals exact ⟨_, _, rfl⟩

/-- C10: a dispatched name matching no configured server prefix does not
make the dispatcher fail: with at least one (HTTP) server configured it
resolves to the first configured server with the whole unmodified name as
the tool and returns a normal envelope naming them; only with an empty
server configuration does it return the failure envelope. -/
theorem C10_unmatched_name_falls_back_to_first_server :
    (∀ (st : ClientState) (fn : String) (args : Json) (net : List HttpAnswer)
        (freshU : String) (now : Nat) (k : String) (c : ServerConfig)
        (rest : List (String × ServerConfig)),
      st.servers = (k, c) :: rest →
      (∀ name ∈ dkeys st.servers, sPrefixOf (name ++ "_") fn = false) →
      c.url.isSome →
      resolveServerTool (dkeys st.servers) fn = some (k, fn) ∧
      ∃ (st' : ClientState) (r : ToolResult),
        execute_tool_for_gemini st fn args net freshU now =
          (st', { success := true, result := some r.content,
                  server := some k, tool := some fn })) ∧
    (∀ (st : ClientState) (fn : String) (args : Json) (net : List HttpAnswer)
        (freshU : String) (now : Nat),
      st.servers = [] →
      execute_tool_for_gemini st fn args net freshU now =
        (st, { success := false, error := some "No MCP servers available",
               server := none, tool := none })) := by
  constructor
  · intro st fn args net freshU now k c rest hservers hnomatch hurl
    have hkeys : dkeys st.servers = k :: dkeys rest := by
      rw [hservers]; rfl
    have hfind : (dkeys st.servers).find?
        (fun s => sPrefixOf (s ++ "_") fn) = none := by
      rw [List.find?_eq_none]
      intro x hx
      simp [hnomatch x hx]
    have hres : resolveServerTool (dkeys st.servers) fn = some (k, fn) := by
      unfold resolveServerTool
      rw [hfind, hkeys]
    refine ⟨hres, ?_⟩
    have hlk : dlookup st.servers k = some c := by
      rw [hservers]; exact dlookup_head k c rest
    obtain ⟨u, hu⟩ := Option.isSome_iff_exists.mp hurl
    obtain ⟨st', r, hcall⟩ :=
      call_http_tool_isOk st k fn args false net freshU now c u hlk hu
    refine ⟨st', r, ?_⟩
    have hct : call_tool st k fn args net freshU now = (st', .ok r) := by
      unfold call_tool
      rw [hlk]
      simp only [hu]
      exact hcall
    simp only [execute_tool_for_gemini, hres, hct]
  · intro st fn args net freshU now hservers
    have hkeys : dkeys st.servers = [] := by rw [hservers]; rfl
    have hres : resolveServerTool (dkeys st.servers) fn = none := by
      unfold resolveServerTool
      rw [hkeys]
      rfl
    unfold execute_tool_for_gemini
    rw [hres]

/-- C10 witness: the fallback branch evaluated at a concrete one-server
configuration and an unmatched function name, and the failure branch at an
empty configuration. -/
theorem C10_unmatched_name_falls_back_to_first_server_witness :
    resolveServerTool
        (dkeys ({ servers := [("fi_mcp", { url := some "http://localhost:8484/mcp/stream" })],
                  pending_auth := [], authenticated_sessions := [] } : ClientState).servers)
        "other_tool" = some ("fi_mcp", "other_tool") ∧
    execute_tool_for_gemini
        ({ servers := [], pending_auth := [], authenticated_sessions := [] })
        "other_tool" (Json.obj []) [] "u" 0 =
      ({ servers := [], pending_auth := [], authenticated_sessions := [] },
       { success := false, error := some "No MCP servers available",
         server := none, tool := none }) := by
  constructor
  · exact (C10_unmatched_name_falls_back_to_first_server.1
      { servers := [("fi_mcp", { url := some "http://localhost:8484/mcp/stream" })],
        pending_auth := [], authenticated_sessions := [] }
      "other_tool" (Json.obj []) [] "u" 0 "fi_mcp"
      { url := some "http://localhost:8484/mcp/stream" } []
      rfl (by decide) (by decide)).1
  · exact C10_unmatched_name_falls_back_to_first_server.2
      { servers := [], pending_auth := [], authenticated_sessions := [] }
      "other_tool" (Json.obj []) [] "u" 0 rfl

theorem dinsert_of_not_mem {α : Type} :
    ∀ (d : List (String × α)) (k : String) (v : α),
      dlookup d k = none → dinsert d k v = d ++ [(k, v)]
  | [], k, v, _ => rfl
  | (k', v') :: rest, k, v, h => by
    by_cases hk : k' = k
    · exfalso
      simp [dlookup, hk] at h
    · simp only [dinsert, if_neg hk, List.cons_append, List.cons.injEq, true_and]
      apply dinsert_of_not_mem
      simpa [dlookup, hk] using h

theorem dlookup_append {α : Type} :
    ∀ (d1 d2 : List (String × α)) (k : String),
      dlookup (d1 ++ d2) k =
        (match dlookup d1 k with
         | some v => some v
         | none => dlookup d2 k)
  | [], d2, k => rfl
  | (k', v') :: rest, d2, k => by
    by_cases hk : k' = k
    · simp [dlookup, hk]
    · simp only [List.cons_append, dlookup, if_neg hk]
      exact dlookup_append rest d2 k

theorem dlookup_map_fst {α β : Type} (g : String → β) :
    ∀ (l : List (String × α)) (k : String) (v : α),
      (k, v) ∈ l → dlookup (l.map (fun p => (p.1, g p.1))) k = some (g k)
  | (k', v') :: rest, k, v, hmem => by
    by_cases hk : k' = k
    · simp [dlookup, hk]
    · have : (k, v) ∈ rest := by
        rcases List.mem_cons.mp hmem with heq | h
        · exact absurd (congrArg Prod.fst heq).symm hk
        · exact h
      simp only [List.map_cons, dlookup, if_neg hk]
      exact dlookup_map_fst g rest k v this

theorem get_all_tools_unfold (fetch : String → Except String (List ToolInfo)) :
    ∀ (servers : List (String × ServerConfig))
      (acc : List (String × List ToolInfo)),
      (∀ p ∈ servers, dlookup acc p.1 = none) →
      (dkeys servers).Nodup →
      servers.foldl
        (fun acc p => dinsert acc p.1
          (match fetch p.1 with | .ok ts => ts | .error _ => [])) acc =
      acc ++ servers.map (fun p => (p.1,
        match fetch p.1 with | .ok ts => ts | .error _ => []))
  | [], acc, _, _ => by simp
  | p :: ps, acc, hfresh, hnodup => by
    have hfp : dlookup acc p.1 = none := hfresh p (List.mem_cons_self p ps)
    have hnd : (dkeys ps).Nodup := (List.nodup_cons.mp hnodup).2
    have hne : p.1 ∉ dkeys ps := (List.nodup_cons.mp hnodup).1
    have hfresh2 : ∀ q ∈ ps,
        dlookup (acc ++ [(p.1, match fetch p.1 with | .ok ts => ts | .error _ => [])]) q.1 = none := by
      intro q hq
      rw [dlookup_append]
      rw [hfresh q (List.mem_cons_of_mem p hq)]
      have hqne : p.1 ≠ q.1 := by
        intro he
        exact hne (he ▸ List.mem_map_of_mem Prod.fst hq)
      simp [dlookup, hqne]
    simp only [List.foldl_cons]
    rw [dinsert_of_not_mem acc p.1 _ hfp]
    rw [get_all_tools_unfold fetch ps _ hfresh2 hnd]
    simp [List.append_assoc]

/-- C7: tool discovery over all configured servers is total: the discovery
result contains one entry per configured server (keys and order are
preserved); a server whose `get_server_tools` fails is recorded with an
empty tool list, a server whose fetch succeeds with its tools — the
registry call never fails as a whole. -/
theorem C7_discovery_is_total :
    ∀ (servers : List (String × ServerConfig))
      (fetch : String → Except String (List ToolInfo)),
      (dkeys servers).Nodup →
      dkeys (get_all_available_tools servers fetch) = dkeys servers ∧
      (∀ name cfg, (name, cfg) ∈ servers →
        ∃ ts, dlookup (get_all_available_tools servers fetch) name = some ts ∧
          (∀ e, fetch name = .error e → ts = []) ∧
          (∀ l, fetch name = .ok l → ts = l)) := by
  intro servers fetch hnodup
  have hmain : get_all_available_tools servers fetch =
      servers.map (fun p => (p.1,
        match fetch p.1 with | .ok ts => ts | .error _ => [])) := by
    rw [get_all_available_tools]
    rw [get_all_tools_unfold fetch servers [] (fun p _ => rfl) hnodup]
    rfl
  constructor
  · rw [hmain]
    simp [dkeys, List.map_map]
  · intro name cfg hmem
    refine ⟨(match fetch name with | .ok ts => ts | .error _ => []), ?_, ?_, ?_⟩
    · rw [hmain]
      exact dlookup_map_fst
        (fun n => match fetch n with | .ok ts => ts | .error _ => [])
        servers name cfg hmem
    · intro e he
      rw [he]
    · intro l hl
      rw [hl]

def c7servers : List (String × ServerConfig) :=
  [("fi_mcp", { url := some "http://localhost:8484/mcp/stream" }),
   ("down_server", { url := some "http://localhost:9999/mcp/stream" })]

def c7fetch : String → Except String (List ToolInfo) :=
  fun n =>
    if n = "fi_mcp" then
      .ok [{ name := "fetch_net_worth", description := "net worth",
             input_schema := Json.obj [], server := "fi_mcp" }]
    else .error "connection refused"

/-- C7 witness: a two-server registry where one fetch fails still lists
both servers, the failing one with zero tools. -/
theorem C7_discovery_is_total_witness :
    dkeys (get_all_available_tools c7servers c7fetch) = ["fi_mcp", "down_server"] ∧
    dlookup (get_all_available_tools c7servers c7fetch) "down_server" = some [] := by
  have h := C7_discovery_is_total c7servers c7fetch (by decide)
  refine ⟨h.1.trans (by decide), ?_⟩
  obtain ⟨ts, hts, herr, _⟩ :=
    h.2 "down_server" { url := some "http://localhost:9999/mcp/stream" } (by decide)
  rw [hts, herr "connection refused" rfl]

end MCPModel

namespace MCPModel

theorem dlookup_mem {α : Type} :
    ∀ (l : List (String × α)) (k : String) (a : α),
      dlookup l k = some a → (k, a) ∈ l
  | (k', v') :: rest, k, a, h => by
    by_cases hk : k' = k
    · simp only [dlookup, if_pos hk] at h
      subst hk
      cases h
      exact List.mem_cons_self _ _
    · simp only [dlookup, if_neg hk] at h
      exact List.mem_cons_of_mem _ (dlookup_mem rest k a h)

theorem dlookup_filter_none {α : Type} (p : String × α → Bool) :
    ∀ (l : List (String × α)) (k : String),
      dlookup l k = none → dlookup (l.filter p) k = none
  | [], k, _ => rfl
  | (k', v') :: rest, k, h => by
    by_cases hk : k' = k
    · simp [dlookup, hk] at h
    · simp only [dlookup, if_neg hk] at h
      by_cases hp : p (k', v')
      · simp only [List.filter_cons_of_pos hp, dlookup, if_neg hk]
        exact dlookup_filter_none p rest k h
      · rw [List.filter_cons_of_neg (by simpa using hp)]
        exact dlookup_filter_none p rest k h

theorem dlookup_filter {α : Type} (p : String × α → Bool) :
    ∀ (l : List (String × α)) (k : String) (a : α),
      (dkeys l).Nodup → dlookup l k = some a →
      dlookup (l.filter p) k = (if p (k, a) then some a else none)
  | (k', v') :: rest, k, a, hnodup, h => by
    by_cases hk : k' = k
    · subst hk
      have h' : v' = a := by simpa [dlookup] using h
      subst h'
      have hrest : dlookup rest k' = none := by
        cases hlr : dlookup rest k' with
        | none => rfl
        | some b =>
          exfalso
          exact (List.nodup_cons.mp hnodup).1
            (List.mem_map.mpr ⟨(k', b), dlookup_mem rest k' b hlr, rfl⟩)
      by_cases hp : p (k', v')
      · simp [List.filter_cons_of_pos hp, dlookup, hp]
      · rw [List.filter_cons_of_neg (by simpa using hp), if_neg hp]
        exact dlookup_filter_none p rest k' hrest
    · simp only [dlookup, if_neg hk] at h
      have hnd : (dkeys rest).Nodup := (List.nodup_cons.mp hnodup).2
      by_cases hp : p (k', v')
      · simp only [List.filter_cons_of_pos hp, dlookup, if_neg hk]
        exact dlookup_filter p rest k a hnd h
      · rw [List.filter_cons_of_neg (by simpa using hp)]
        exact dlookup_filter p rest k a hnd h

/-- C3 (amended): `is_authenticated` returns `true` exactly when an
authenticated record exists and `now - created_at ≤ ttl` — the code
expires strictly after the ttl has elapsed (`>` in
`_is_session_expired`), not at `now - created_at = ttl` as the claim's
`<` would demand.  It still returns `true` at `ttl - 1s` and `false` at
`ttl + 1s`; when it returns `false` because of expiry the record is
evicted from the authenticated map, and `cleanup_expired_sessions` at
`ttl + 1s` also removes it and reports at least one eviction. -/
theorem C3_is_authenticated_expiry_boundary :
    ∀ (st : ClientState) (server : String) (a : AuthSession) (now : Nat),
      dlookup st.authenticated_sessions server = some a →
      a.status = "authenticated" →
      (dkeys st.authenticated_sessions).Nodup →
      (((is_authenticated st now server).1 = true) ↔
        now - a.timestamp ≤ st.session_timeout) ∧
      (st.session_timeout < now - a.timestamp →
        is_authenticated st now server =
          (false,
            { st with authenticated_sessions := derase st.authenticated_sessions server })) ∧
      (1 ≤ st.session_timeout →
        (is_authenticated st (a.timestamp + st.session_timeout - 1) server).1 = true) ∧
      ((is_authenticated st (a.timestamp + st.session_timeout + 1) server).1 = false) ∧
      1 ≤ (cleanup_expired_sessions st (a.timestamp + st.session_timeout + 1)).1 ∧
      dlookup (cleanup_expired_sessions st
          (a.timestamp + st.session_timeout + 1)).2.authenticated_sessions
        server = none := by
  intro st server a now hlk hstatus hnodup
  have hauth_of_live : ∀ m : Nat, m - a.timestamp ≤ st.session_timeout →
      (is_authenticated st m server).1 = true := by
    intro m hm
    have hexp : is_session_expired st.session_timeout m a = false := by
      simp [is_session_expired]
      omega
    simp [is_authenticated, hlk, hexp, hstatus]
  have hdead : ∀ m : Nat, st.session_timeout < m - a.timestamp →
      is_authenticated st m server =
        (false,
          { st with authenticated_sessions := derase st.authenticated_sessions server }) := by
    intro m hm
    have hexp : is_session_expired st.session_timeout m a = true := by
      simp [is_session_expired]
      omega
    simp [is_authenticated, hlk, hexp]
  have hgt : st.session_timeout < a.timestamp + st.session_timeout + 1 - a.timestamp := by
    omega
  refine ⟨?_, hdead now, ?_, ?_, ?_, ?_⟩
  · constructor
    · intro htrue
      by_contra hgt
      rw [hdead now (Nat.lt_of_not_le hgt)] at htrue
      exact Bool.false_ne_true htrue
    · exact hauth_of_live now
  · intro h1
    exact hauth_of_live (a.timestamp + st.session_timeout - 1) (by omega)
  · rw [hdead (a.timestamp + st.session_timeout + 1) hgt]
  · have hexp : is_session_expired st.session_timeout
        (a.timestamp + st.session_timeout + 1) a = true := by
      simp [is_session_expired]
      omega
    have hmem : (server, a) ∈ st.authenticated_sessions.filter
        (fun p => is_session_expired st.session_timeout
          (a.timestamp + st.session_timeout + 1) p.2) :=
      List.mem_filter.mpr ⟨dlookup_mem _ _ _ hlk, hexp⟩
    exact List.length_pos_of_mem hmem
  · have hexp : is_session_expired st.session_timeout
        (a.timestamp + st.session_timeout + 1) a = true := by
      simp [is_session_expired]
      omega
    have := dlookup_filter
      (fun p => ! is_session_expired st.session_timeout
        (a.timestamp + st.session_timeout + 1) p.2)
      st.authenticated_sessions server a hnodup hlk
    rw [cleanup_expired_sessions]
    simp only [this, hexp]
    rfl

def c3state : ClientState :=
  { servers := [("fi_mcp", { url := some "http://localhost:8484/mcp/stream" })]
    pending_auth := []
    authenticated_sessions := [("fi_mcp",
      { session_id := "mcp-session-abc", phone_number := "999",
        status := "authenticated", timestamp := 0, expires_in := 3600 })]
    session_timeout := 3600 }

/-- C3 counterexample: at `now - created_at = ttl` exactly (now = 3600,
created_at = 0, ttl = 3600) `is_authenticated` returns `true` although
`now - created_at < ttl` does not hold — the claim's "true exactly when
now - created_at < ttl" fails at the boundary. -/
theorem C3_counterexample :
    ¬ (((is_authenticated c3state 3600 "fi_mcp").1 = true) ↔
        ((3600 : Nat) - 0 < 3600)) := by
  decide

/-- C3 witness: the amended boundary behaviour evaluated on a concrete
session with `created_at = 0`, `ttl = 3600`. -/
theorem C3_is_authenticated_expiry_boundary_witness :
    ((is_authenticated c3state 3599 "fi_mcp").1 = true) ∧
    ((is_authenticated c3state 3601 "fi_mcp").1 = false) ∧
    1 ≤ (cleanup_expired_sessions c3state 3601).1 ∧
    dlookup (cleanup_expired_sessions c3state 3601).2.authenticated_sessions
      "fi_mcp" = none := by
  have h := C3_is_authenticated_expiry_boundary c3state "fi_mcp"
    { session_id := "mcp-session-abc", phone_number := "999",
      status := "authenticated", timestamp := 0, expires_in := 3600 }
    3600 (by decide) rfl (by decide)
  exact ⟨h.2.2.1 (by decide), h.2.2.2.1, h.2.2.2.2.1, h.2.2.2.2.2⟩

end MCPModel

namespace MCPModel

/-- C4: `mark_session_authenticated` with a session id that does not match
the stored pending session, or with no pending session at all, returns
`success: false` and leaves the whole client state — in particular both
the pending-auth map and the authenticated map — unchanged. -/
theorem C4_mark_mismatch_leaves_state_unchanged :
    ∀ (st : ClientState) (server : String) (sid? : Option String)
      (regAns : HttpAnswer) (now : Nat),
      (dlookup st.pending_auth server = none ∨
        (∃ p s, dlookup st.pending_auth server = some p ∧
          sid? = some s ∧ s ≠ p.session_id)) →
      (mark_session_authenticated st server sid? regAns now).1 = st ∧
      (mark_session_authenticated st server sid? regAns now).2.success = false := by
  intro st server sid? regAns now h
  rcases h with hnone | ⟨p, s, hp, hs, hne⟩
  · cases sid? with
    | none => simp [mark_session_authenticated, hnone]
    | some s => simp [mark_session_authenticated, hnone]
  · subst hs
    have hmis : p.session_id ≠ (some s).getD p.session_id := by
      simpa using Ne.symm hne
    simp only [mark_session_authenticated, markFinish, hp, Option.getD_some]
    rw [if_pos (Ne.symm hne)]
    exact ⟨rfl, rfl⟩

def c4state : ClientState :=
  { servers := [("fi_mcp", { url := some "http://localhost:8484/mcp/stream" })]
    pending_auth := [("fi_mcp",
      { session_id := "mcp-session-abc", phone_number := "999",
        status := "pending_auth_redirect", timestamp := 10 })]
    authenticated_sessions := []
    session_timeout := 3600 }

/-- C4 witness: a wrong session id against a concrete pending session
fails and mutates nothing. -/
theorem C4_mark_mismatch_leaves_state_unchanged_witness :
    (mark_session_authenticated c4state "fi_mcp" (some "wrong-id")
        (.resp 200 "ok") 20).1 = c4state ∧
    (mark_session_authenticated c4state "fi_mcp" (some "wrong-id")
        (.resp 200 "ok") 20).2.success = false :=
  C4_mark_mismatch_leaves_state_unchanged c4state "fi_mcp" (some "wrong-id")
    (.resp 200 "ok") 20
    (Or.inr ⟨{ session_id := "mcp-session-abc", phone_number := "999",
               status := "pending_auth_redirect", timestamp := 10 },
             "wrong-id", by decide, rfl, by decide⟩)

end MCPModel

namespace MCPModel

/-- C5: for a successful (HTTP 200) tool-call response whose first content
item has type `text`, the transport JSON-decodes the `text` field and, on
decode failure, returns the raw string unchanged — in both cases as a
success envelope, never as a raised exception. -/
theorem C5_text_content_decoded_or_raw :
    ∀ (st : ClientState) (server tool : String) (args : Json) (dummy : Bool)
      (freshU : String) (now : Nat) (cfg : ServerConfig) (u body : String)
      (rpcFields rFields iFields : List (String × Json)) (txt : String)
      (restItems : List Json),
      dlookup st.servers server = some cfg →
      cfg.url = some u →
      json_loads body = some (.obj rpcFields) →
      dlookup rpcFields "error" = none →
      dlookup rpcFields "result" = some (.obj rFields) →
      dlookup rFields "content" = some (.arr (Json.obj iFields :: restItems)) →
      dlookup iFields "type" = some (.str "text") →
      dlookup iFields "text" = some (.str txt) →
      (call_http_tool st server tool args dummy [.resp 200 body] freshU now).2 =
        .ok (textContentResult txt) ∧
      (textContentResult txt).success = true ∧
      (∀ j, json_loads txt = some j → (textContentResult txt).content = j) ∧
      (json_loads txt = none → (textContentResult txt).content = .str txt) := by
  intro st server tool args dummy freshU now cfg u body rpcFields rFields
    iFields txt restItems hcfg hurl hbody herr hres hcont htype htext
  refine ⟨?_, ?_, ?_, ?_⟩
  · have hextract : extractResult (.obj rpcFields) = .ok (textContentResult txt) := by
      simp only [extractResult, herr, hres, hcont, htype, htext, if_pos]
    have hbodyres : handleOkBody tool body = textContentResult txt := by
      simp only [handleOkBody, hbody, hextract]
    have h400 : ¬ ((200 : Nat) = 400 ∧ strContains "Invalid session ID" body = true) := by
      intro h
      exact absurd h.1 (by decide)
    unfold call_http_tool
    rw [hcfg]
    simp only [hurl, List.headD_cons, httpRequestStep]
    rw [if_neg h400, if_neg (by decide : ¬ ((400 : Nat) ≤ 200 ∧ (200 : Nat) < 600))]
    rw [hbodyres]
  · rw [textContentResult]
    cases hj : json_loads txt <;> simp [hj]
  · intro j hj
    simp [textContentResult, hj]
  · intro hj
    simp [textContentResult, hj]

def c5state : ClientState :=
  { servers := [("fi_mcp", { url := some "http://localhost:8484/mcp/stream" })]
    pending_auth := [("fi_mcp",
      { session_id := "mcp-session-abc", phone_number := "999",
        status := "pending_auth_redirect", timestamp := 0 })]
    authenticated_sessions := []
    session_timeout := 3600 }

/-- The wire body whose first text item embeds the JSON object
`\x7b"a":1\x7d`. -/
def c5bodyJson : String :=
  "\x7b\"result\":\x7b\"content\":[\x7b\"type\":\"text\",\"text\":\"\x7b\\\"a\\\":1\x7d\"\x7d]\x7d\x7d"

/-- The wire body whose first text item is the invalid-JSON string
`plain`. -/
def c5bodyPlain : String :=
  "\x7b\"result\":\x7b\"content\":[\x7b\"type\":\"text\",\"text\":\"plain\"\x7d]\x7d\x7d"

/-- C5 witness: the two examples of the claim — embedded `\x7b"a":1\x7d`
decodes to the object, embedded `plain` comes back as the raw string, both
as success envelopes. -/
theorem C5_text_content_decoded_or_raw_witness :
    (call_http_tool c5state "fi_mcp" "fetch_net_worth" (Json.obj []) false
        [.resp 200 c5bodyJson] "u1" 0).2 =
      .ok { content := .obj [("a", .num 1)], success := true, error := none } ∧
    (call_http_tool c5state "fi_mcp" "fetch_net_worth" (Json.obj []) false
        [.resp 200 c5bodyPlain] "u2" 0).2 =
      .ok { content := .str "plain", success := true, error := none } := by
  constructor
  · have h := C5_text_content_decoded_or_raw c5state "fi_mcp" "fetch_net_worth"
      (Json.obj []) false "u1" 0
      { url := some "http://localhost:8484/mcp/stream" }
      "http://localhost:8484/mcp/stream" c5bodyJson
      [("result", .obj [("content",
        .arr [.obj [("type", .str "text"), ("text", .str "\x7b\"a\":1\x7d")]])])]
      [("content", .arr [.obj [("type", .str "text"), ("text", .str "\x7b\"a\":1\x7d")]])]
      [("type", .str "text"), ("text", .str "\x7b\"a\":1\x7d")]
      "\x7b\"a\":1\x7d" []
      rfl rfl (by decide) rfl rfl rfl rfl rfl
    exact h.1.trans (congrArg Except.ok (by decide))
  · have h := C5_text_content_decoded_or_raw c5state "fi_mcp" "fetch_net_worth"
      (Json.obj []) false "u2" 0
      { url := some "http://localhost:8484/mcp/stream" }
      "http://localhost:8484/mcp/stream" c5bodyPlain
      [("result", .obj [("content",
        .arr [.obj [("type", .str "text"), ("text", .str "plain")]])])]
      [("content", .arr [.obj [("type", .str "text"), ("text", .str "plain")]])]
      [("type", .str "text"), ("text", .str "plain")]
      "plain" []
      rfl rfl (by decide) rfl rfl rfl rfl rfl
    exact h.1.trans (congrArg Except.ok (by decide))

end MCPModel

namespace MCPModel

theorem dlookup_dinsert_self {α : Type} :
    ∀ (d : List (String × α)) (k : String) (v : α),
      dlookup (dinsert d k v) k = some v
  | [], k, v => by simp [dinsert, dlookup]
  | (k', v') :: rest, k, v => by
    by_cases hk : k' = k
    · simp [dinsert, hk, dlookup]
    · simp [dinsert, hk, dlookup, dlookup_dinsert_self rest k v]

theorem infixAux_suffix : ∀ (pre n : List Char), infixAux n (pre ++ n) = true
  | [], n => by
    cases n with
    | nil => rfl
    | cons c rest =>
      simp only [List.nil_append, infixAux, Bool.or_eq_true]
      exact Or.inl (List.isPrefixOf_iff_prefix.mpr (List.prefix_refl _))
  | c :: pre, n => by
    simp only [List.cons_append, infixAux, Bool.or_eq_true]
    exact Or.inr (infixAux_suffix pre n)

theorem login_url_contains_token (base sid : String) :
    strContains ("token=" ++ sid)
      (base ++ "/wealth-mcp-login?token=" ++ sid) = true := by
  show infixAux ("token=" ++ sid).data
    (base ++ "/wealth-mcp-login?token=" ++ sid).data = true
  have h1 : ("token=" ++ sid).data = "token=".data ++ sid.data :=
    String.data_append _ _
  have h2 : (base ++ "/wealth-mcp-login?token=" ++ sid).data =
      (base.data ++ "/wealth-mcp-login?".data) ++ ("token=".data ++ sid.data) := by
    rw [String.data_append, String.data_append]
    rw [show "/wealth-mcp-login?token=".data =
      "/wealth-mcp-login?".data ++ "token=".data from rfl]
    simp [List.append_assoc]
  rw [h1, h2]
  exact infixAux_suffix _ _

theorem login_url_ne_empty (base sid : String) :
    (base ++ "/wealth-mcp-login?token=" ++ sid) ≠ "" := by
  intro h
  have hd : (base ++ "/wealth-mcp-login?token=" ++ sid).data = [] := by
    rw [h]
  rw [String.data_append, String.data_append] at hd
  have := congrArg List.length hd
  simp [List.length_append] at this

/-- The state after `_call_http_tool` stores a freshly minted pending
session (lines 574-585 and 601-611). -/
def mintPending (st1 : ClientState) (server sid : String) (now : Nat) : ClientState :=
  { st1 with pending_auth := dinsert st1.pending_auth server (pendingFor sid now) }

theorem is_authenticated_preserves (st : ClientState) (now : Nat) (server : String) :
    (is_authenticated st now server).2.pending_auth = st.pending_auth := by
  unfold is_authenticated
  cases dlookup st.authenticated_sessions server with
  | none => rfl
  | some info =>
    by_cases h : is_session_expired st.session_timeout now info
    · simp [h]
    · simp [h]

/-- C6: an HTTP 400 response whose body contains the sentinel
`Invalid session ID` yields a success envelope whose content is the
login-required object: non-empty `login_url` containing
`token=<session_id>`, the same `session_id` stored in the pending-auth
map afterwards; an existing pending id is reused, otherwise the freshly
minted one is used. -/
theorem C6_invalid_session_login_required :
    ∀ (st : ClientState) (server tool : String) (args : Json) (dummy : Bool)
      (freshU : String) (now : Nat) (cfg : ServerConfig) (u body : String),
      dlookup st.servers server = some cfg →
      cfg.url = some u →
      strContains "Invalid session ID" body = true →
      ∃ (sid : String) (st' : ClientState),
        call_http_tool st server tool args dummy [.resp 400 body] freshU now =
          (st', .ok {
            content := .obj [
              ("status", .str "login_required"),
              ("login_url", .str (sReplace u "/mcp/stream" "" ++
                "/wealth-mcp-login?token=" ++ sid)),
              ("message", .str "Please complete authentication using the provided link"),
              ("session_id", .str sid)]
            success := true }) ∧
        (∃ p, dlookup st'.pending_auth server = some p ∧ p.session_id = sid) ∧
        strContains ("token=" ++ sid)
          (sReplace u "/mcp/stream" "" ++ "/wealth-mcp-login?token=" ++ sid) = true ∧
        (sReplace u "/mcp/stream" "" ++ "/wealth-mcp-login?token=" ++ sid) ≠ "" ∧
        (∀ p0, dlookup st.pending_auth server = some p0 → sid = p0.session_id) := by
  intro st server tool args dummy freshU now cfg u body hcfg hurl hbody
  obtain ⟨b, st1, hA, hp1⟩ :
      ∃ b st1, (if dummy = true then (false, st)
        else is_authenticated st now server) = (b, st1) ∧
        st1.pending_auth = st.pending_auth := by
    cases dummy with
    | true => exact ⟨false, st, rfl, rfl⟩
    | false =>
      exact ⟨(is_authenticated st now server).1, (is_authenticated st now server).2,
        rfl, is_authenticated_preserves st now server⟩
  cases hpend : dlookup st.pending_auth server with
  | some p0 =>
    refine ⟨p0.session_id, st1, ?_, ⟨p0, ?_, rfl⟩,
      login_url_contains_token _ _, login_url_ne_empty _ _, ?_⟩
    · cases b with
      | false =>
        simp [call_http_tool, selectSession, httpRequestStep, authRequired400,
          loginRequiredResult, hcfg, hurl, hA, hp1, hpend, hbody]
      | true =>
        cases hauth : dlookup st1.authenticated_sessions server with
        | some a =>
          simp [call_http_tool, selectSession, httpRequestStep, authRequired400,
            loginRequiredResult, hcfg, hurl, hA, hauth, hp1, hpend, hbody]
        | none =>
          simp [call_http_tool, selectSession, httpRequestStep, authRequired400,
            loginRequiredResult, hcfg, hurl, hA, hauth, hp1, hpend, hbody]
    · rw [hp1, hpend]
    · intro p0' hp0'
      rw [Option.some.inj hp0']
  | none =>
    refine ⟨"mcp-session-" ++ freshU,
      mintPending st1 server ("mcp-session-" ++ freshU) now,
      ?_, ⟨pendingFor ("mcp-session-" ++ freshU) now, ?_, rfl⟩,
      login_url_contains_token _ _, login_url_ne_empty _ _, ?_⟩
    · cases b with
      | false =>
        simp [call_http_tool, selectSession, httpRequestStep, authRequired400,
          loginRequiredResult, hcfg, hurl, hA, hp1, hpend, hbody,
          dlookup_dinsert_self, mintPending, pendingFor]
      | true =>
        cases hauth : dlookup st1.authenticated_sessions server with
        | some a =>
          simp [call_http_tool, selectSession, httpRequestStep, authRequired400,
            loginRequiredResult, hcfg, hurl, hA, hauth, hp1, hpend, hbody,
            dlookup_dinsert_self, mintPending, pendingFor]
        | none =>
          simp [call_http_tool, selectSession, httpRequestStep, authRequired400,
            loginRequiredResult, hcfg, hurl, hA, hauth, hp1, hpend, hbody,
            dlookup_dinsert_self, mintPending, pendingFor]
    · simp [mintPending, dlookup_dinsert_self, pendingFor]
    · intro p0' hp0'
      cases hp0'

end MCPModel

namespace MCPModel

def c6pending : PendingAuth :=
  { session_id := "mcp-session-abc", phone_number := "999",
    status := "pending_auth_redirect", timestamp := 0 }

def c6state : ClientState :=
  { servers := [("fi_mcp", { url := some "http://localhost:8484/mcp/stream" })]
    pending_auth := [("fi_mcp", c6pending)]
    authenticated_sessions := []
    session_timeout := 3600 }

/-- C6 witness: a concrete 400 response with the sentinel substring yields
the login-required envelope whose URL carries `token=` followed by the
pending session id already stored for the server. -/
theorem C6_invalid_session_login_required_witness :
    (call_http_tool c6state "fi_mcp" "fetch_net_worth" (Json.obj []) true
        [.resp 400 "code 400: Invalid session ID"] "uuid-1" 5).2 =
      .ok { content := .obj [
              ("status", .str "login_required"),
              ("login_url",
                .str "http://localhost:8484/wealth-mcp-login?token=mcp-session-abc"),
              ("message", .str "Please complete authentication using the provided link"),
              ("session_id", .str "mcp-session-abc")]
            success := true
            error := none } ∧
    strContains "token=mcp-session-abc"
      "http://localhost:8484/wealth-mcp-login?token=mcp-session-abc" = true := by
  obtain ⟨sid, st', heq, hpendout, htok, hne, hreuse⟩ :=
    C6_invalid_session_login_required c6state "fi_mcp" "fetch_net_worth"
      (Json.obj []) true "uuid-1" 5
      { url := some "http://localhost:8484/mcp/stream" }
      "http://localhost:8484/mcp/stream" "code 400: Invalid session ID"
      rfl rfl (by decide)
  have hsid : sid = "mcp-session-abc" := hreuse c6pending rfl
  subst hsid
  constructor
  · rw [heq]
    exact congrArg Except.ok (by decide)
  · decide

end MCPModel

namespace MCPModel

/-- C9 (amended): the HTTP tool-call path performs no automatic retries of
any kind: the outcome is computed from the single `requests.post` answer
(the head of the environment) and any queued further answers are never
consumed — a transient network error is reported once as a failure
envelope (not retried once as the claim states) and a timeout is reported
once as a Timeout failure. -/
theorem C9_no_automatic_retry :
    (∀ (st : ClientState) (server tool : String) (args : Json) (dummy : Bool)
        (freshU : String) (now : Nat) (a : HttpAnswer) (rest : List HttpAnswer),
      call_http_tool st server tool args dummy (a :: rest) freshU now =
        call_http_tool st server tool args dummy [a] freshU now) ∧
    (∀ (st : ClientState) (server tool : String) (args : Json) (dummy : Bool)
        (freshU : String) (now : Nat) (cfg : ServerConfig) (u m : String),
      dlookup st.servers server = some cfg → cfg.url = some u →
      (∃ st', call_http_tool st server tool args dummy [.exn m] freshU now =
        (st', .ok (errorEnvelope tool m))) ∧
      (∃ st', call_http_tool st server tool args dummy [.timeout] freshU now =
        (st', .ok { content := .str ("Timeout calling tool " ++ tool)
                    success := false
                    error := some (.str "Request timeout") }))) := by
  constructor
  · intro st server tool args dummy freshU now a rest
    unfold call_http_tool
    cases hcfg : dlookup st.servers server with
    | none => rfl
    | some cfg =>
      cases hurl : cfg.url with
      | none => rfl
      | some u => simp only [List.headD_cons]
  · intro st server tool args dummy freshU now cfg u m hcfg hurl
    constructor
    · unfold call_http_tool
      rw [hcfg]
      simp only [hurl, List.headD_cons]
      exact ⟨_, rfl⟩
    · unfold call_http_tool
      rw [hcfg]
      simp only [hurl, List.headD_cons]
      exact ⟨_, rfl⟩

def c9state : ClientState :=
  { servers := [("fi_mcp", { url := some "http://localhost:8484/mcp/stream" })]
    pending_auth := [("fi_mcp",
      { session_id := "mcp-session-abc", phone_number := "999",
        status := "pending_auth_redirect", timestamp := 0 })]
    authenticated_sessions := []
    session_timeout := 3600 }

def c9goodBody : String :=
  "\x7b\"result\":\x7b\"content\":[\x7b\"type\":\"text\",\"text\":\"ok\"\x7d]\x7d\x7d"

/-- C9 counterexample: a transient network error is not retried even once —
with a successful response queued right behind the failing attempt, the
call still returns the failure envelope of the first attempt (the queued
response, which on its own would yield a success envelope, is never
consumed), refuting "exactly one automatic retry for transient network
errors". -/
theorem C9_counterexample :
    (call_http_tool c9state "fi_mcp" "fetch_net_worth" (Json.obj []) false
        [.exn "ConnectionError", .resp 200 c9goodBody] "w" 0).2 =
      .ok (errorEnvelope "fetch_net_worth" "ConnectionError") ∧
    (errorEnvelope "fetch_net_worth" "ConnectionError").success = false ∧
    call_http_tool c9state "fi_mcp" "fetch_net_worth" (Json.obj []) false
        [.exn "ConnectionError", .resp 200 c9goodBody] "w" 0 =
      call_http_tool c9state "fi_mcp" "fetch_net_worth" (Json.obj []) false
        [.exn "ConnectionError"] "w" 0 ∧
    (call_http_tool c9state "fi_mcp" "fetch_net_worth" (Json.obj []) false
        [.resp 200 c9goodBody] "w" 0).2 =
      .ok { content := .str "ok", success := true, error := none } := by
  refine ⟨by decide, by decide, by decide, by decide⟩

/-- C9 witness: the no-retry theorem applied at a concrete state, network
error and timeout. -/
theorem C9_no_automatic_retry_witness :
    call_http_tool c9state "fi_mcp" "fetch_net_worth" (Json.obj []) false
        [.timeout, .resp 200 c9goodBody] "w" 0 =
      call_http_tool c9state "fi_mcp" "fetch_net_worth" (Json.obj []) false
        [.timeout] "w" 0 ∧
    (call_http_tool c9state "fi_mcp" "fetch_net_worth" (Json.obj []) false
        [.timeout] "w" 0).2 =
      .ok { content := .str "Timeout calling tool fetch_net_worth"
            success := false
            error := some (.str "Request timeout") } := by
  constructor
  · exact C9_no_automatic_retry.1 c9state "fi_mcp" "fetch_net_worth"
      (Json.obj []) false "w" 0 .timeout [.resp 200 c9goodBody]
  · obtain ⟨st', h⟩ := (C9_no_automatic_retry.2 c9state "fi_mcp" "fetch_net_worth"
      (Json.obj []) false "w" 0
      { url := some "http://localhost:8484/mcp/stream" }
      "http://localhost:8484/mcp/stream" "unused" rfl rfl).2
    rw [h]
    rfl

end MCPModel

namespace MCPModel

/-- On the 400-sentinel answer with an existing pending session and a
dummy session, `_call_http_tool` reuses the pending id verbatim and leaves
the state untouched. -/
theorem call_http_tool_400_with_pending (st : ClientState)
    (server tool : String) (args : Json) (freshU : String) (now : Nat)
    (cfg : ServerConfig) (u body : String) (p : PendingAuth)
    (hcfg : dlookup st.servers server = some cfg)
    (hurl : cfg.url = some u)
    (hpend : dlookup st.pending_auth server = some p)
    (hbody : strContains "Invalid session ID" body = true) :
    call_http_tool st server tool args true [.resp 400 body] freshU now =
      (st, .ok {
        content := .obj [
          ("status", .str "login_required"),
          ("login_url", .str (sReplace u "/mcp/stream" "" ++
            "/wealth-mcp-login?token=" ++ p.session_id)),
          ("message", .str "Please complete authentication using the provided link"),
          ("session_id", .str p.session_id)]
        success := true }) := by
  simp [call_http_tool, selectSession, httpRequestStep, authRequired400,
    loginRequiredResult, hcfg, hurl, hpend, hbody]

/-- The pending entry `generate_auth_session` stores. -/
def genPending (sid phone : String) (now2 : Nat) : PendingAuth :=
  { session_id := sid, phone_number := phone,
    status := "pending_auth_redirect", timestamp := now2 }

/-- `generate_auth_session` on the 400-sentinel probe answer with an
existing pending session: the pending session id is extracted back from
the login URL and re-stored, and the returned session id and login URL are
those of the pending session. -/
theorem generate_on_sentinel (st : ClientState) (server phone : String)
    (cfg : ServerConfig) (u body : String) (p : PendingAuth)
    (f1 f2 : String) (n1 n2 : Nat)
    (hcfg : dlookup st.servers server = some cfg)
    (hurl : cfg.url = some u)
    (hpend : dlookup st.pending_auth server = some p)
    (hbody : strContains "Invalid session ID" body = true)
    (htok : tokenSearch (sReplace u "/mcp/stream" "" ++
      "/wealth-mcp-login?token=" ++ p.session_id).data = some p.session_id) :
    generate_auth_session st server phone [.resp 400 body] f1 f2 n1 n2 =
      ({ st with pending_auth := dinsert st.pending_auth server (genPending p.session_id phone n2) },
       .ok { success := true
             session_id := p.session_id
             login_url := sReplace u "/mcp/stream" "" ++
               "/wealth-mcp-login?token=" ++ p.session_id
             message := "Please complete authentication using the provided link" }) := by
  have hcall := call_http_tool_400_with_pending st server "fetch_net_worth"
    (Json.obj []) f1 n1 cfg u body p hcfg hurl hpend hbody
  have hinfo : loginRequiredInfo (.obj [
      ("status", .str "login_required"),
      ("login_url", .str (sReplace u "/mcp/stream" "" ++
        "/wealth-mcp-login?token=" ++ p.session_id)),
      ("message", .str "Please complete authentication using the provided link"),
      ("session_id", .str p.session_id)]) =
      some (sReplace u "/mcp/stream" "" ++
        "/wealth-mcp-login?token=" ++ p.session_id,
        "Please complete authentication using the provided link") := by
    simp [loginRequiredInfo, dlookup, login_url_ne_empty]
  unfold generate_auth_session
  rw [hcfg]
  simp only [hcall, hinfo, htok, Option.getD_some, genPending]

end MCPModel

namespace MCPModel

/-- C2 (amended): when the probe call is answered with the auth-required
sentinel (HTTP 400 containing "Invalid session ID") — the situation in
which a pending login link exists server-side — two successive
`generate_auth_session` calls both return the pending session's id and the
same login URL, and the stored pending session id is unchanged.  (When the
probe fails with a network error instead, the fallback mints a fresh id on
every call, so the claim does not hold unconditionally; see the
counterexample.) -/
theorem C2_generate_idempotent_only_on_sentinel :
    ∀ (st : ClientState) (server phone phone2 : String) (cfg : ServerConfig)
      (u body : String) (p : PendingAuth) (f1 f2 f3 f4 : String)
      (n1 n2 n3 n4 : Nat),
      dlookup st.servers server = some cfg →
      cfg.url = some u →
      dlookup st.pending_auth server = some p →
      strContains "Invalid session ID" body = true →
      tokenSearch (sReplace u "/mcp/stream" "" ++
        "/wealth-mcp-login?token=" ++ p.session_id).data = some p.session_id →
      (generate_auth_session st server phone [.resp 400 body] f1 f2 n1 n2).2 =
        .ok { success := true
              session_id := p.session_id
              login_url := sReplace u "/mcp/stream" "" ++
                "/wealth-mcp-login?token=" ++ p.session_id
              message := "Please complete authentication using the provided link" } ∧
      (generate_auth_session
          (generate_auth_session st server phone [.resp 400 body] f1 f2 n1 n2).1
          server phone2 [.resp 400 body] f3 f4 n3 n4).2 =
        .ok { success := true
              session_id := p.session_id
              login_url := sReplace u "/mcp/stream" "" ++
                "/wealth-mcp-login?token=" ++ p.session_id
              message := "Please complete authentication using the provided link" } ∧
      (∃ p', dlookup (generate_auth_session
          (generate_auth_session st server phone [.resp 400 body] f1 f2 n1 n2).1
          server phone2 [.resp 400 body] f3 f4 n3 n4).1.pending_auth server =
            some p' ∧
        p'.session_id = p.session_id) := by
  intro st server phone phone2 cfg u body p f1 f2 f3 f4 n1 n2 n3 n4
    hcfg hurl hpend hbody htok
  have h1 := generate_on_sentinel st server phone cfg u body p f1 f2 n1 n2
    hcfg hurl hpend hbody htok
  have key : (generate_auth_session st server phone [.resp 400 body] f1 f2 n1 n2).1 =
      { st with pending_auth := dinsert st.pending_auth server (genPending p.session_id phone n2) } :=
    congrArg Prod.fst h1
  have hpend1 : dlookup ({ st with pending_auth := dinsert st.pending_auth server (genPending p.session_id phone n2) } : ClientState).pending_auth server =
      some (genPending p.session_id phone n2) :=
    dlookup_dinsert_self _ _ _
  have h2 := generate_on_sentinel
    { st with pending_auth := dinsert st.pending_auth server (genPending p.session_id phone n2) }
    server phone2 cfg u body (genPending p.session_id phone n2) f3 f4 n3 n4
    hcfg hurl hpend1 hbody htok
  refine ⟨by rw [h1], ?_, ?_⟩
  · rw [key, h2]
    rfl
  · refine ⟨genPending p.session_id phone2 n4, ?_, rfl⟩
    rw [key, h2]
    exact dlookup_dinsert_self _ _ _

def c2state : ClientState :=
  { servers := [("fi_mcp", { url := some "http://localhost:8484/mcp/stream" })]
    pending_auth := [("fi_mcp",
      { session_id := "mcp-session-aaa", phone_number := "999",
        status := "pending_auth_redirect", timestamp := 0 })]
    authenticated_sessions := []
    session_timeout := 3600 }

/-- C2 counterexample: with a pending session `mcp-session-aaa` in place
but the probe call failing (timeout), `generate_auth_session` does not
return the pending session unchanged: the fallback mints a fresh id each
call, so two successive calls return two different session ids (and
different login URLs), and the stored pending id is replaced — the
claimed unconditional idempotence fails. -/
theorem C2_counterexample :
    (generate_auth_session c2state "fi_mcp" "999" [.timeout] "w" "u1" 1 1).2 =
      .ok { success := true
            session_id := "mcp-session-u1"
            login_url := "https://localhost/wealth-mcp-login?token=mcp-session-u1"
            message := "Please complete authentication using the provided link" } ∧
    (generate_auth_session
        (generate_auth_session c2state "fi_mcp" "999" [.timeout] "w" "u1" 1 1).1
        "fi_mcp" "999" [.timeout] "w" "u2" 2 2).2 =
      .ok { success := true
            session_id := "mcp-session-u2"
            login_url := "https://localhost/wealth-mcp-login?token=mcp-session-u2"
            message := "Please complete authentication using the provided link" } ∧
    "mcp-session-u1" ≠ "mcp-session-u2" ∧
    dlookup (generate_auth_session c2state "fi_mcp" "999" [.timeout] "w" "u1" 1 1).1.pending_auth
        "fi_mcp" =
      some { session_id := "mcp-session-u1", phone_number := "999",
             status := "pending_auth_redirect", timestamp := 1 } := by
  refine ⟨by decide, by decide, by decide, by decide⟩

/-- C2 witness: the sentinel-path idempotence at a concrete state: both
calls return the pending id `mcp-session-aaa` and the same login URL. -/
theorem C2_generate_idempotent_only_on_sentinel_witness :
    (generate_auth_session c2state "fi_mcp" "999"
        [.resp 400 "Invalid session ID"] "w" "u1" 1 1).2 =
      .ok { success := true
            session_id := "mcp-session-aaa"
            login_url := "http://localhost:8484/wealth-mcp-login?token=mcp-session-aaa"
            message := "Please complete authentication using the provided link" } ∧
    (generate_auth_session
        (generate_auth_session c2state "fi_mcp" "999"
          [.resp 400 "Invalid session ID"] "w" "u1" 1 1).1
        "fi_mcp" "999" [.resp 400 "Invalid session ID"] "w" "u2" 2 2).2 =
      .ok { success := true
            session_id := "mcp-session-aaa"
            login_url := "http://localhost:8484/wealth-mcp-login?token=mcp-session-aaa"
            message := "Please complete authentication using the provided link" } := by
  have h := C2_generate_idempotent_only_on_sentinel c2state "fi_mcp" "999" "999"
    { url := some "http://localhost:8484/mcp/stream" }
    "http://localhost:8484/mcp/stream" "Invalid session ID"
    { session_id := "mcp-session-aaa", phone_number := "999",
      status := "pending_auth_redirect", timestamp := 0 }
    "w" "u1" "w" "u2" 1 1 2 2 rfl rfl rfl (by decide) (by decide)
  refine ⟨h.1.trans (congrArg Except.ok (by decide)),
    h.2.1.trans (congrArg Except.ok (by decide))⟩

end MCPModel

namespace MCPModel

theorem dlookup_eq_none_of_not_mem {α : Type} :
    ∀ (d : List (String × α)) (k : String), k ∉ dkeys d → dlookup d k = none
  | [], _, _ => rfl
  | (k', v') :: rest, k, h => by
    have hk : k' ≠ k := fun he => h (List.mem_cons.mpr (Or.inl he.symm))
    simp only [dlookup, if_neg hk]
    exact dlookup_eq_none_of_not_mem rest k
      (fun hm => h (List.mem_cons_of_mem _ hm))

theorem dlookup_derase_self {α : Type} :
    ∀ (d : List (String × α)) (k : String),
      (dkeys d).Nodup → dlookup (derase d k) k = none
  | [], _, _ => rfl
  | (k', v') :: rest, k, hnd => by
    by_cases hk : k' = k
    · simp only [derase, if_pos hk]
      subst hk
      exact dlookup_eq_none_of_not_mem rest k' (List.nodup_cons.mp hnd).1
    · simp only [derase, if_neg hk, dlookup, if_neg hk]
      exact dlookup_derase_self rest k (List.nodup_cons.mp hnd).2

/-- `mark_session_authenticated` either fails or replaces the pending map
by `derase`. -/
theorem mark_cases (st : ClientState) (server : String) (sid? : Option String)
    (regAns : HttpAnswer) (now : Nat) :
    (mark_session_authenticated st server sid? regAns now).2.success = false ∨
    (mark_session_authenticated st server sid? regAns now).1.pending_auth =
      derase st.pending_auth server := by
  unfold mark_session_authenticated markFinish registrationOutcome
  repeat' split
  all_goals first | (left; rfl) | (right; rfl)

theorem is_authenticated_auth_cases (st : ClientState) (now : Nat) (server : String) :
    (is_authenticated st now server).2.authenticated_sessions =
      st.authenticated_sessions ∨
    (is_authenticated st now server).2.authenticated_sessions =
      derase st.authenticated_sessions server := by
  unfold is_authenticated
  split
  · left; rfl
  · split
    · right; rfl
    · left; rfl

theorem selectSession_auth (stA : Bool × ClientState) (server freshU : String)
    (now : Nat) :
    (selectSession stA server freshU now).2.authenticated_sessions =
      stA.2.authenticated_sessions := by
  unfold selectSession
  repeat' split
  all_goals rfl

theorem httpRequestStep_auth (st2 : ClientState)
    (server tool mcp_url freshU : String) (now : Nat) (ans : HttpAnswer) :
    (httpRequestStep st2 server tool mcp_url freshU now ans).1.authenticated_sessions =
      st2.authenticated_sessions := by
  unfold httpRequestStep authRequired400
  repeat' split
  all_goals rfl

/-- `_call_http_tool` never adds an authenticated entry: the authenticated
map is unchanged or has the server's expired entry evicted. -/
theorem call_http_tool_auth_cases (st : ClientState) (server tool : String)
    (args : Json) (dummy : Bool) (net : List HttpAnswer) (freshU : String)
    (now : Nat) :
    (call_http_tool st server tool args dummy net freshU now).1.authenticated_sessions =
      st.authenticated_sessions ∨
    (call_http_tool st server tool args dummy net freshU now).1.authenticated_sessions =
      derase st.authenticated_sessions server := by
  obtain ⟨b, st1, hA, hauth⟩ :
      ∃ b st1, (if dummy = true then (false, st)
        else is_authenticated st now server) = (b, st1) ∧
        (st1.authenticated_sessions = st.authenticated_sessions ∨
         st1.authenticated_sessions = derase st.authenticated_sessions server) := by
    cases dummy with
    | true => exact ⟨false, st, rfl, Or.inl rfl⟩
    | false =>
      exact ⟨(is_authenticated st now server).1, (is_authenticated st now server).2,
        rfl, is_authenticated_auth_cases st now server⟩
  unfold call_http_tool
  split
  · exact Or.inl rfl
  · split
    · exact Or.inl rfl
    · rw [hA]
      rw [httpRequestStep_auth, selectSession_auth]
      exact hauth

/-- C8 (amended): a successful `mark_session_authenticated` establishes
the exclusivity for its server (the pending entry is deleted when the
authenticated entry is installed), and the tool-call path never adds an
authenticated entry (it can only evict an expired one); but the claimed
invariant does not hold over all operation sequences, because
`generate_auth_session` and the HTTP auth-required path store a pending
entry without consulting the authenticated map (see the counterexample
trace). -/
theorem C8_exclusivity_only_via_mark :
    (∀ (st : ClientState) (server : String) (sid? : Option String)
        (regAns : HttpAnswer) (now : Nat),
      (dkeys st.pending_auth).Nodup →
      (mark_session_authenticated st server sid? regAns now).2.success = true →
      dlookup (mark_session_authenticated st server sid? regAns now).1.pending_auth
        server = none) ∧
    (∀ (st : ClientState) (server tool : String) (args : Json) (dummy : Bool)
        (net : List HttpAnswer) (freshU : String) (now : Nat),
      (call_http_tool st server tool args dummy net freshU now).1.authenticated_sessions =
        st.authenticated_sessions ∨
      (call_http_tool st server tool args dummy net freshU now).1.authenticated_sessions =
        derase st.authenticated_sessions server) := by
  constructor
  · intro st server sid? regAns now hnodup hsucc
    rcases mark_cases st server sid? regAns now with h | h
    · rw [h] at hsucc
      cases hsucc
    · rw [h]
      exact dlookup_derase_self st.pending_auth server hnodup
  · intro st server tool args dummy net freshU now
    exact call_http_tool_auth_cases st server tool args dummy net freshU now

def c8state0 : ClientState :=
  { servers := [("fi_mcp", { url := some "http://localhost:8484/mcp/stream" })]
    pending_auth := [("fi_mcp",
      { session_id := "mcp-session-aaa", phone_number := "999",
        status := "pending_auth_redirect", timestamp := 0 })]
    authenticated_sessions := []
    session_timeout := 3600 }

def c8state1 : ClientState :=
  (mark_session_authenticated c8state0 "fi_mcp" none (.resp 200 "ok") 1).1

def c8state2 : ClientState :=
  (generate_auth_session c8state1 "fi_mcp" "999" [.timeout] "w" "u2" 2 2).1

/-- C8 counterexample: a concrete public-operation trace — mint, then a
successful `mark_session_authenticated` (exclusive so far), then another
`generate_auth_session` while the server is still authenticated — ends in
a state where BOTH the pending-auth map and the authenticated map hold an
entry for the server, violating the claimed mutual exclusivity. -/
theorem C8_counterexample :
    (dlookup c8state1.authenticated_sessions "fi_mcp").isSome = true ∧
    (dlookup c8state1.pending_auth "fi_mcp").isSome = false ∧
    (dlookup c8state2.authenticated_sessions "fi_mcp").isSome = true ∧
    (dlookup c8state2.pending_auth "fi_mcp").isSome = true := by
  refine ⟨by decide, by decide, by decide, by decide⟩

/-- C8 witness: both amended guarantees at concrete inputs — the
successful mark call leaves no pending entry, and a tool call leaves the
authenticated map unchanged or evicted. -/
theorem C8_exclusivity_only_via_mark_witness :
    dlookup (mark_session_authenticated c8state0 "fi_mcp" none
        (.resp 200 "ok") 1).1.pending_auth "fi_mcp" = none ∧
    ((call_http_tool c8state0 "fi_mcp" "fetch_net_worth" (Json.obj []) false
        [.timeout] "w" 5).1.authenticated_sessions =
      c8state0.authenticated_sessions ∨
     (call_http_tool c8state0 "fi_mcp" "fetch_net_worth" (Json.obj []) false
        [.timeout] "w" 5).1.authenticated_sessions =
      derase c8state0.authenticated_sessions "fi_mcp") := by
  constructor
  · exact C8_exclusivity_only_via_mark.1 c8state0 "fi_mcp" none
      (.resp 200 "ok") 1 (by decide) (by decide)
  · exact C8_exclusivity_only_via_mark.2 c8state0 "fi_mcp" "fetch_net_worth"
      (Json.obj []) false [.timeout] "w" 5

end MCPModel
